import Mathlib

/-!
Verification of the real-time session coordinator of the MedConnect
video-call page (`src/pages/Videocall.tsx`), shallowly embedded in Lean.
Each section embeds one handler or function of the source component and
the theorems settle the spec's claims about it.
-/

set_option linter.unusedVariables false

namespace MedConnect

/-! ## Data model: participants (roster) -/

/-- One roster entry, mirroring `{ id, name, isLocal }` of the source. -/
structure Participant where
  id : String
  name : String
  isLocal : Bool
deriving DecidableEq, Repr

/-- The `newSocket.on('user-joined')` handler (Videocall.tsx:237-243):
`if (prev.some(p => p.id === data.userId) || prev.length >= 10) return prev;
 return [...prev, { id: data.userId, name: data.name, isLocal: false }]`. -/
def userJoined (prev : List Participant) (uid nm : String) : List Participant :=
  if prev.any (fun p => p.id = uid) ∨ 10 ≤ prev.length then prev
  else prev ++ [⟨uid, nm, false⟩]

/-- The `newSocket.on('user-left')` handler (Videocall.tsx:245-248):
`prev.filter(p => p.id !== data.userId)`. -/
def userLeft (prev : List Participant) (uid : String) : List Participant :=
  prev.filter (fun p => p.id ≠ uid)

/-- Initial roster (Videocall.tsx:32): the local user is present from the
start: `[{ id: user?.id || 'local', name: 'Tú', isLocal: true }]`. -/
def initialRoster (localId : String) : List Participant :=
  [⟨localId, "Tú", true⟩]

/-- Fold a sequence of `user-joined` events (pairs of id and name) over the
roster, exactly as repeated invocations of the handler. -/
def processJoins (roster : List Participant) (evs : List (String × String)) :
    List Participant :=
  evs.foldl (fun r e => userJoined r e.1 e.2) roster

/-! ## Chat send (`sendMessage`, Videocall.tsx:479-487) -/

/-- One chat transcript entry `{ id, author, text }`. -/
structure ChatMessage where
  mid : Nat
  author : String
  text : String
deriving DecidableEq, Repr

/-- JavaScript `String.prototype.trim`: strip leading and trailing
whitespace.  Embedded structurally over the string's character list so it
evaluates by kernel reduction. -/
def jsTrim (s : String) : String :=
  ⟨((s.data.dropWhile Char.isWhitespace).reverse.dropWhile
      Char.isWhitespace).reverse⟩

/-- The state read and written by `sendMessage`. -/
structure ChatState where
  chatInput : String
  socketPresent : Bool
  meetingEnded : Bool
  messages : List ChatMessage
deriving DecidableEq, Repr

/-- `sendMessage` (Videocall.tsx:479-487): trims the input; returns doing
nothing when the trimmed text is falsy, the socket is absent, or the
meeting has ended; otherwise emits `send-message` with the trimmed text and
appends `{ id: m.length + 1, author: 'Tú', text }`, clearing the input.
The second component lists the texts of outbound `send-message` emissions. -/
def sendMessage (s : ChatState) : ChatState × List String :=
  let text := jsTrim s.chatInput
  if text = "" ∨ s.socketPresent = false ∨ s.meetingEnded = true then (s, [])
  else
    ({ s with
        messages := s.messages ++ [⟨s.messages.length + 1, "Tú", text⟩],
        chatInput := "" },
     [text])

/-! ## Claim C1: roster growth and duplicate-join idempotence -/

theorem userJoined_length_le (r : List Participant) (uid nm : String) :
    (userJoined r uid nm).length ≤ r.length + 1 := by
  unfold userJoined
  split
  · exact Nat.le_succ _
  · simp

theorem userJoined_dup (r : List Participant) (uid nm : String)
    (h : r.any (fun p => p.id = uid)) : userJoined r uid nm = r := by
  unfold userJoined
  rw [if_pos (Or.inl h)]

theorem userJoined_ids_subset (r : List Participant) (uid nm : String) :
    ∀ p ∈ userJoined r uid nm, p ∈ r ∨ p.id = uid := by
  intro p hp
  unfold userJoined at hp
  split at hp
  · exact Or.inl hp
  · rcases List.mem_append.mp hp with h | h
    · exact Or.inl h
    · right
      simp only [List.mem_singleton] at h
      subst h
      rfl

/-- Main induction for C1: processing join events whose ids are fresh for
the roster and pairwise distinct grows the roster to
`min (roster.length + evs.length) 10`, provided the roster starts at or
below the cap. -/
theorem processJoins_length (evs : List (String × String)) :
    ∀ r : List Participant, r.length ≤ 10 →
    (∀ e ∈ evs, ∀ p ∈ r, p.id ≠ e.1) →
    (evs.map Prod.fst).Nodup →
    (processJoins r evs).length = min (r.length + evs.length) 10 := by
  induction evs with
  | nil =>
      intro r hle _ _
      simp [processJoins, Nat.min_eq_left hle]
  | cons e rest ih =>
      intro r hle hfresh hnd
      simp only [List.map_cons, List.nodup_cons] at hnd
      by_cases hcap : 10 ≤ r.length
      · -- at the cap: the handler leaves the roster unchanged
        have hr10 : r.length = 10 := Nat.le_antisymm hle hcap
        have hstep : userJoined r e.1 e.2 = r := by
          unfold userJoined
          rw [if_pos (Or.inr hcap)]
        have := ih r hle (fun e' he' => hfresh e' (List.mem_cons_of_mem _ he')) hnd.2
        simp only [processJoins, List.foldl_cons] at *
        rw [hstep, this, hr10]
        omega
      · -- below the cap: the fresh id is added
        have hnotmem : ¬ r.any (fun p => p.id = e.1) := by
          simp only [List.any_eq_true, decide_eq_true_eq, not_exists]
          intro p
          rintro ⟨hp, hpe⟩
          exact hfresh e (List.mem_cons_self e rest) p hp hpe
        have hcond : ¬ ((r.any (fun p => p.id = e.1) = true) ∨ 10 ≤ r.length) := by
          rintro (h | h)
          · exact hnotmem h
          · exact hcap h
        have hstep : userJoined r e.1 e.2 = r ++ [⟨e.1, e.2, false⟩] := by
          unfold userJoined
          rw [if_neg hcond]
        have hle' : (r ++ [(⟨e.1, e.2, false⟩ : Participant)]).length ≤ 10 := by
          simp only [List.length_append, List.length_singleton]
          omega
        have hfresh' : ∀ e' ∈ rest, ∀ p ∈ r ++ [(⟨e.1, e.2, false⟩ : Participant)],
            p.id ≠ e'.1 := by
          intro e' he' p hp
          rcases List.mem_append.mp hp with h | h
          · exact hfresh e' (List.mem_cons_of_mem _ he') p h
          · simp only [List.mem_singleton] at h
            subst h
            intro hid
            have hid' : e.1 = e'.1 := hid
            apply hnd.1
            rw [hid']
            exact List.mem_map_of_mem Prod.fst he'
        have := ih (r ++ [⟨e.1, e.2, false⟩]) hle' hfresh' hnd.2
        simp only [processJoins, List.foldl_cons] at *
        rw [hstep, this]
        have hlen : (r ++ [(⟨e.1, e.2, false⟩ : Participant)]).length = r.length + 1 := by
          simp
        rw [hlen]
        simp only [List.length_cons]
        omega

/-- C1: starting from the initial roster (only the local participant),
processing N `participant-joined` events with pairwise-distinct remote ids
(all different from the local id) yields a roster of size `min (N+1) 10`;
and a `participant-joined` whose id is already present is a no-op (the
roster, hence its size, is unchanged, so no duplicate entry appears). -/
theorem C1_roster_growth_and_dup_noop (localId : String)
    (evs : List (String × String))
    (hdistinct : (evs.map Prod.fst).Nodup)
    (hremote : ∀ e ∈ evs, e.1 ≠ localId) :
    (processJoins (initialRoster localId) evs).length = min (evs.length + 1) 10 ∧
    (∀ r : List Participant, ∀ uid nm : String,
      r.any (fun p => p.id = uid) → userJoined r uid nm = r) := by
  constructor
  · have h := processJoins_length evs (initialRoster localId)
      (by simp [initialRoster])
      (by
        intro e he p hp
        simp only [initialRoster, List.mem_singleton] at hp
        subst hp
        exact fun hc => hremote e he (hc.symm))
      hdistinct
    simpa [initialRoster, Nat.add_comm] using h
  · exact fun r uid nm h => userJoined_dup r uid nm h

/-- Witness for C1 at a concrete input: three distinct remote joins on top
of the local participant give a roster of size 4 = min (3+1) 10. -/
theorem C1_roster_growth_and_dup_noop_witness :
    (processJoins (initialRoster "me")
      [("a", "A"), ("b", "B"), ("c", "C")]).length = min (3 + 1) 10 ∧
    (∀ r : List Participant, ∀ uid nm : String,
      r.any (fun p => p.id = uid) → userJoined r uid nm = r) :=
  C1_roster_growth_and_dup_noop "me" [("a", "A"), ("b", "B"), ("c", "C")]
    (by decide) (by decide)

/-! ## Claim C2: chat send guard and optimistic append -/

/-- C2: if the trimmed text is empty (the input was empty or
whitespace-only), the socket is absent, or the meeting has ended,
`sendMessage` emits nothing and leaves the whole state (in particular the
transcript) unchanged; otherwise it emits `send-message` exactly once with
the trimmed text and appends exactly one entry authored "Tú" carrying the
trimmed text, immediately (no server echo is involved). -/
theorem C2_send_guard_and_optimistic_append (s : ChatState) :
    ((jsTrim s.chatInput = "" ∨ s.socketPresent = false ∨ s.meetingEnded = true) →
      sendMessage s = (s, [])) ∧
    (jsTrim s.chatInput ≠ "" → s.socketPresent = true → s.meetingEnded = false →
      (sendMessage s).2 = [jsTrim s.chatInput] ∧
      (sendMessage s).1.messages =
        s.messages ++ [⟨s.messages.length + 1, "Tú", jsTrim s.chatInput⟩]) := by
  constructor
  · intro h
    unfold sendMessage
    rw [if_pos h]
  · intro h1 h2 h3
    unfold sendMessage
    rw [if_neg (by simp [h1, h2, h3])]
    exact ⟨rfl, rfl⟩

/-- Witness for C2 at the concrete input "hola": one emission of "hola" and
a transcript append authored "Tú". -/
theorem C2_send_guard_and_optimistic_append_witness :
    jsTrim "hola" ≠ "" ∧
    (sendMessage ⟨"hola", true, false, []⟩).2 = [jsTrim "hola"] ∧
    (sendMessage ⟨"hola", true, false, []⟩).1.messages =
      [] ++ [⟨0 + 1, "Tú", jsTrim "hola"⟩] := by
  have h := (C2_send_guard_and_optimistic_append ⟨"hola", true, false, []⟩).2
    (by decide) rfl rfl
  exact ⟨by decide, h.1, h.2⟩

/-! ## Hangup (`hangup`, Videocall.tsx:617-641) -/

/-- The state read and written by `hangup`. -/
structure HangupState where
  isCreator : Bool
  meetingIdPresent : Bool
  tokenPresent : Bool
  socketPresent : Bool
  userPresent : Bool
  voiceSocketPresent : Bool
  participants : List Participant
  messages : List ChatMessage
  showChat : Bool
deriving DecidableEq, Repr

/-- Externally visible effects of one `hangup` invocation. -/
structure HangupEffects where
  endMeetingHttpCalled : Bool
  endMeetingEmitted : Bool
  leaveVoiceEmitted : Bool
  navigated : Bool
deriving DecidableEq, Repr

/-- `hangup` (Videocall.tsx:617-641): when `isCreator && meetingId && token`
it PUTs the end-meeting endpoint and emits `end-meeting` (via `socket?.`);
when `user && voiceSocket` it emits `leave-voice-room`; it then sets
`participants` to `[]`, sets `showChat` to `false` (the `messages`
transcript is left untouched) and navigates to `/realtime`. -/
def hangup (s : HangupState) : HangupState × HangupEffects :=
  let doEnd := s.isCreator && s.meetingIdPresent && s.tokenPresent
  ({ s with participants := [], showChat := false },
   { endMeetingHttpCalled := doEnd,
     endMeetingEmitted := doEnd && s.socketPresent,
     leaveVoiceEmitted := s.userPresent && s.voiceSocketPresent,
     navigated := true })

/-! ## Remote termination (`newSocket.on('meeting-ended')`, Videocall.tsx:230-235) -/

/-- The state touched by the `meeting-ended` handler: the terminal flag,
the list of user-surfaced message strings (`alert`s), and the delays of the
scheduled navigate-away timers (`setTimeout(navigate, 3000)`). -/
structure EndedState where
  meetingEnded : Bool
  alerts : List String
  scheduledNavDelays : List Nat
deriving DecidableEq, Repr

/-- The `meeting-ended` handler (Videocall.tsx:230-235):
`setMeetingEnded(true); alert(message); setTimeout(() => navigate('/realtime'), 3000)`. -/
def onMeetingEnded (s : EndedState) (message : String) : EndedState :=
  { meetingEnded := true,
    alerts := s.alerts ++ [message],
    scheduledNavDelays := s.scheduledNavDelays ++ [3000] }

/-! ## Chat-channel connect handler (`handleConnect`, Videocall.tsx:203-213) -/

/-- Whether a `connect` event is the first connection or a
reconnect-triggered one.  The source handler does not distinguish them. -/
inductive ConnectKind where
  | initial : ConnectKind
  | reconnect : ConnectKind
deriving DecidableEq, Repr

/-- `handleConnect` (Videocall.tsx:206-212): `if (!hasJoined) { emit
join-meeting; hasJoined = true }`.  Returns the new flag and the number of
`join-meeting` emissions (0 or 1).  The `ConnectKind` is ignored, exactly
as in the source; in particular the flag is never reset. -/
def handleConnect (hasJoined : Bool) (k : ConnectKind) : Bool × Nat :=
  if hasJoined then (hasJoined, 0) else (true, 1)

/-- Process a sequence of `connect` events through `handleConnect`,
accumulating the total number of `join-meeting` emissions. -/
def processConnects (hasJoined : Bool) : List ConnectKind → Bool × Nat
  | [] => (hasJoined, 0)
  | k :: rest =>
      let r := handleConnect hasJoined k
      let r' := processConnects r.1 rest
      (r'.1, r.2 + r'.2)

/-! ## Claim C3: non-owner hangup -/

/-- Counterexample for C3: a non-owner hangs up while the transcript holds
the welcome message; afterwards the transcript still holds it — the chat
transcript is not cleared, contradicting the claim that roster and chat
transcript are both cleared. -/
theorem C3_counterexample_transcript_not_cleared :
    (hangup ⟨false, true, true, true, true, true,
        [⟨"me", "Tú", true⟩],
        [⟨1, "Sistema", "Bienvenido al chat de la reunión."⟩], true⟩).1.messages =
      [⟨1, "Sistema", "Bienvenido al chat de la reunión."⟩] ∧
    ([⟨1, "Sistema", "Bienvenido al chat de la reunión."⟩] : List ChatMessage) ≠ [] := by
  constructor
  · rfl
  · decide

/-- C3 (amended): a non-owner hangup (with user and voice socket present)
makes no end-meeting HTTP call and no end-meeting emission, still emits
`leave-voice-room`, clears the roster, closes the chat panel while leaving
the chat transcript unchanged, and invokes navigate-away. -/
theorem C3_nonowner_hangup (s : HangupState)
    (hown : s.isCreator = false)
    (huser : s.userPresent = true)
    (hvs : s.voiceSocketPresent = true) :
    (hangup s).2.endMeetingHttpCalled = false ∧
    (hangup s).2.endMeetingEmitted = false ∧
    (hangup s).2.leaveVoiceEmitted = true ∧
    (hangup s).1.participants = [] ∧
    (hangup s).1.showChat = false ∧
    (hangup s).1.messages = s.messages ∧
    (hangup s).2.navigated = true := by
  simp [hangup, hown, huser, hvs]

/-- Witness for C3 at a concrete non-owner state. -/
theorem C3_nonowner_hangup_witness :
    (hangup ⟨false, true, true, true, true, true, [⟨"me", "Tú", true⟩],
        [⟨1, "Sistema", "Bienvenido al chat de la reunión."⟩], true⟩).2.endMeetingHttpCalled
        = false ∧
    (hangup ⟨false, true, true, true, true, true, [⟨"me", "Tú", true⟩],
        [⟨1, "Sistema", "Bienvenido al chat de la reunión."⟩], true⟩).2.endMeetingEmitted
        = false ∧
    (hangup ⟨false, true, true, true, true, true, [⟨"me", "Tú", true⟩],
        [⟨1, "Sistema", "Bienvenido al chat de la reunión."⟩], true⟩).2.leaveVoiceEmitted
        = true ∧
    (hangup ⟨false, true, true, true, true, true, [⟨"me", "Tú", true⟩],
        [⟨1, "Sistema", "Bienvenido al chat de la reunión."⟩], true⟩).1.participants
        = [] ∧
    (hangup ⟨false, true, true, true, true, true, [⟨"me", "Tú", true⟩],
        [⟨1, "Sistema", "Bienvenido al chat de la reunión."⟩], true⟩).1.showChat
        = false ∧
    (hangup ⟨false, true, true, true, true, true, [⟨"me", "Tú", true⟩],
        [⟨1, "Sistema", "Bienvenido al chat de la reunión."⟩], true⟩).1.messages
        = [⟨1, "Sistema", "Bienvenido al chat de la reunión."⟩] ∧
    (hangup ⟨false, true, true, true, true, true, [⟨"me", "Tú", true⟩],
        [⟨1, "Sistema", "Bienvenido al chat de la reunión."⟩], true⟩).2.navigated
        = true :=
  C3_nonowner_hangup _ rfl rfl rfl

/-! ## Claim C5: remote session-ended handling -/

/-- C5: on a received `meeting-ended` event with reason `r`, the handler
sets the ended flag, surfaces exactly the string `r` (one new alert whose
text is `r`), and schedules exactly one navigate-away with a fixed
3-second (3000 ms) delay. -/
theorem C5_meeting_ended (s : EndedState) (r : String) :
    (onMeetingEnded s r).meetingEnded = true ∧
    (onMeetingEnded s r).alerts = s.alerts ++ [r] ∧
    (onMeetingEnded s r).scheduledNavDelays = s.scheduledNavDelays ++ [3000] := by
  exact ⟨rfl, rfl, rfl⟩

/-! ## Claim C7: join-room emitted once per socket lifetime -/

theorem processConnects_joined (evs : List ConnectKind) :
    processConnects true evs = (true, 0) := by
  induction evs with
  | nil => rfl
  | cons k rest ih => simp [processConnects, handleConnect, ih]

/-- Counterexample for C7: after the first connect the flag is set, and a
subsequent reconnect-triggered connect neither resets the flag nor emits
`join-meeting` — the sequence [initial, reconnect] produces one emission,
not the two the claim's "a genuine reconnection emits join-room again"
requires. -/
theorem C7_counterexample_no_rejoin_on_reconnect :
    handleConnect true ConnectKind.reconnect = (true, 0) ∧
    (processConnects false [ConnectKind.initial, ConnectKind.reconnect]).2 = 1 ∧
    (1 : Nat) ≠ 2 := by
  decide

/-- C7 (amended): over every nonempty sequence of chat-channel connect
events (reconnect-triggered ones included), `join-meeting` is emitted
exactly once per socket lifetime: the local flag is set by the first
connect and never reset, so every later connect — reconnects included —
emits nothing. -/
theorem C7_join_once_per_socket_lifetime :
    (∀ evs : List ConnectKind, (processConnects true evs).2 = 0) ∧
    (∀ evs : List ConnectKind, evs ≠ [] → (processConnects false evs).2 = 1) := by
  constructor
  · intro evs
    rw [processConnects_joined evs]
  · intro evs hne
    match evs, hne with
    | k :: rest, _ =>
        simp [processConnects, handleConnect, processConnects_joined rest]

/-- Witness for C7 on a concrete two-event sequence. -/
theorem C7_join_once_per_socket_lifetime_witness :
    (processConnects false [ConnectKind.initial, ConnectKind.reconnect]).2 = 1 :=
  C7_join_once_per_socket_lifetime.2
    [ConnectKind.initial, ConnectKind.reconnect] (by decide)

/-! ## Media controller (`requestMicrophonePermission` Videocall.tsx:70-114,
`ensureMedia` Videocall.tsx:496-573) -/

/-- The kind of a media track. -/
inductive TrackKind where
  | video : TrackKind
  | audio : TrackKind
deriving DecidableEq, Repr

/-- One media track: its kind, its `enabled` flag and whether `stop()` has
been called on it. -/
structure Track where
  kind : TrackKind
  enabled : Bool
  stopped : Bool
deriving DecidableEq, Repr

/-- `navigator.mediaDevices.getUserMedia({ video, audio })`: a fresh stream
with one live, enabled track per requested kind. -/
def acquireStream (video audio : Bool) : List Track :=
  (if video then [⟨TrackKind.video, true, false⟩] else []) ++
  (if audio then [⟨TrackKind.audio, true, false⟩] else [])

/-- Set the `enabled` flag on the first track of the given kind, as
`current.getVideoTracks()[0].enabled = ...` does. -/
def setEnabledFirst (k : TrackKind) (e : Bool) : List Track → List Track
  | [] => []
  | t :: rest =>
      if t.kind = k then { t with enabled := e } :: rest
      else t :: setEnabledFirst k e rest

/-- The media controller's state: the stream held by `mediaStreamRef`. -/
structure MediaState where
  stream : Option (List Track)
deriving DecidableEq, Repr

/-- `ensureMedia` (Videocall.tsx:496-573), success paths.  The second
component counts `getUserMedia` device-acquisition calls performed by the
invocation.  If audio is desired and no stream exists, acquire a stream
(with video iff desired) and return.  If a stream exists, set `enabled` on
its first video and first audio track to the desired values; then, if
video is desired but the stream has no video track, acquire a replacement
stream `{ video: true, audio: desiredAudio }`, stop the old tracks and
swap it in.  If no stream exists and audio is not desired, do nothing. -/
def ensureMedia (desiredVideo desiredAudio : Bool) (s : MediaState) :
    MediaState × Nat :=
  match s.stream with
  | none =>
      if desiredAudio = true then
        ({ stream := some (acquireStream desiredVideo desiredAudio) }, 1)
      else (s, 0)
  | some cur =>
      let cur' := setEnabledFirst TrackKind.audio desiredAudio
        (setEnabledFirst TrackKind.video desiredVideo cur)
      if desiredVideo = true ∧
          cur.find? (fun t => t.kind = TrackKind.video) = none then
        ({ stream := some (acquireStream true desiredAudio) }, 1)
      else
        ({ stream := some cur' }, 0)

/-- Outcome of the mount-time microphone permission request. -/
structure MicPermResult where
  stream : Option (List Track)
  micOn : Bool
  acquisitions : Nat
deriving DecidableEq, Repr

/-- `requestMicrophonePermission` success path (Videocall.tsx:72-97):
acquires an audio-only stream, stores it in `mediaStreamRef.current`, then
calls `stop()` on every one of its tracks (the reference stays set), and
sets `micOn` to true. -/
def requestMicrophonePermissionSuccess : MicPermResult :=
  let stream := acquireStream false true
  { stream := some (stream.map (fun t => { t with stopped := true })),
    micOn := true,
    acquisitions := 1 }

/-! ## Claim C6: media ensure idempotence -/

/-- C6: `ensure(video=false, audio=true)` run twice from a no-stream state
acquires a device stream exactly once (the second run performs no
acquisition); and in general, whenever a stream exists and it is not the
case that video is desired while the stream has no video track, `ensure`
performs no device acquisition and only sets the `enabled` flags of the
existing first video/audio tracks to the desired values. -/
theorem C6_ensure_idempotent :
    ((ensureMedia false true ⟨none⟩).2 = 1 ∧
     (ensureMedia false true (ensureMedia false true ⟨none⟩).1).2 = 0) ∧
    (∀ (ts : List Track) (dv da : Bool),
      ¬(dv = true ∧ ts.find? (fun t => t.kind = TrackKind.video) = none) →
      (ensureMedia dv da ⟨some ts⟩).2 = 0 ∧
      (ensureMedia dv da ⟨some ts⟩).1.stream =
        some (setEnabledFirst TrackKind.audio da
          (setEnabledFirst TrackKind.video dv ts))) := by
  refine ⟨⟨rfl, rfl⟩, ?_⟩
  intro ts dv da h
  simp only [ensureMedia]
  rw [if_neg h]
  exact ⟨rfl, rfl⟩

/-- Witness for C6's general conjunct on a concrete audio-only stream with
mic being toggled back on. -/
theorem C6_ensure_idempotent_witness :
    ¬((false = true) ∧
      ([(⟨TrackKind.audio, false, false⟩ : Track)].find?
        (fun t => t.kind = TrackKind.video) = none)) ∧
    (ensureMedia false true ⟨some [⟨TrackKind.audio, false, false⟩]⟩).2 = 0 ∧
    (ensureMedia false true ⟨some [⟨TrackKind.audio, false, false⟩]⟩).1.stream =
      some (setEnabledFirst TrackKind.audio true
        (setEnabledFirst TrackKind.video false [⟨TrackKind.audio, false, false⟩])) :=
  ⟨by decide,
   C6_ensure_idempotent.2 [⟨TrackKind.audio, false, false⟩] false true (by decide)⟩

/-! ## Claim C10: mount-time permission leaves a stored stream of stopped
tracks, so the later ensure run cannot produce a live audio track -/

/-- C10: after the mount-time microphone permission request succeeds, the
stored stream reference is non-null while its only (audio) track has been
stopped; a subsequent `ensureMedia` with audio desired therefore takes the
existing-stream branch, performs no device acquisition, and merely sets
`enabled := true` on the already-stopped track — the stream stays
non-live. -/
theorem C10_stopped_stream_not_reacquired :
    requestMicrophonePermissionSuccess.stream =
      some [⟨TrackKind.audio, true, true⟩] ∧
    requestMicrophonePermissionSuccess.micOn = true ∧
    requestMicrophonePermissionSuccess.acquisitions = 1 ∧
    (∀ t ∈ requestMicrophonePermissionSuccess.stream.getD [], t.stopped = true) ∧
    (ensureMedia false true ⟨requestMicrophonePermissionSuccess.stream⟩).2 = 0 ∧
    (ensureMedia false true ⟨requestMicrophonePermissionSuccess.stream⟩).1.stream =
      some [⟨TrackKind.audio, true, true⟩] := by
  refine ⟨rfl, rfl, rfl, ?_, rfl, rfl⟩
  decide

/-- Witness for C10 at the stored stream's concrete audio track. -/
theorem C10_stopped_stream_not_reacquired_witness :
    (⟨TrackKind.audio, true, true⟩ : Track) ∈
      requestMicrophonePermissionSuccess.stream.getD [] ∧
    (⟨TrackKind.audio, true, true⟩ : Track).stopped = true :=
  ⟨by decide,
   C10_stopped_stream_not_reacquired.2.2.2.1
     ⟨TrackKind.audio, true, true⟩ (by decide)⟩

/-! ## Peer negotiation layer: connection timeout and open
(Videocall.tsx:169-189, 261-270) -/

/-- `peerStatus` state values (Videocall.tsx:23). -/
inductive PeerStatus where
  | connecting : PeerStatus
  | connected : PeerStatus
  | error : PeerStatus
deriving DecidableEq, Repr

/-- The negotiation-relevant state: current `peerStatus`, whether the
20-second `connectionTimeout` is still pending, whether the current peer
is disconnected, the list of Peer instances constructed so far as pairs of
(identity, construction time in ms), and whether the 1-second
`join-voice-room` timer has been scheduled. -/
structure PeerConnState where
  status : PeerStatus
  timerActive : Bool
  disconnected : Bool
  peers : List (String × Nat)
  joinVoiceScheduled : Bool
deriving DecidableEq, Repr

/-- Mount-time peer setup (Videocall.tsx:152-189): one Peer constructed
with the base identity at time 0, status `connecting`, 20-second timeout
pending. -/
def initPeer (baseId : String) : PeerConnState :=
  { status := PeerStatus.connecting, timerActive := true, disconnected := false,
    peers := [(baseId, 0)], joinVoiceScheduled := false }

/-- The `connectionTimeout` handler firing at time `now`
(Videocall.tsx:170-189): only runs if the timer is still pending; if the
peer is not disconnected it sets the status to `error` and constructs —
synchronously, inside the handler — a replacement Peer whose identity is
the base id suffixed with `_` and `Date.now()`, i.e. at the very moment
the timer fires. -/
def fireConnectionTimeout (baseId : String) (now : Nat) (s : PeerConnState) :
    PeerConnState :=
  if s.timerActive = true then
    if s.disconnected = false then
      { s with timerActive := false, status := PeerStatus.error,
               peers := s.peers ++ [(baseId ++ "_" ++ toString now, now)] }
    else { s with timerActive := false }
  else s

/-- The `newPeer.on('open')` handler (Videocall.tsx:261-270):
`clearTimeout(connectionTimeout)`, status `connected`, and a 1-second
timer scheduling the `join-voice-room` emission. -/
def handleOpen (s : PeerConnState) : PeerConnState :=
  { s with timerActive := false, status := PeerStatus.connected,
           joinVoiceScheduled := true }

/-! ## Claim C4: timeout retry and timer cancellation -/

/-- Counterexample for C4: when the 20-second timeout fires at t = 20000 ms
the replacement Peer with the suffixed identity is constructed at
t = 20000 ms — the very moment of the `error` transition — and not at
t = 30000 ms, so no 10-second wait precedes the re-attempt. -/
theorem C4_counterexample_no_ten_second_wait :
    fireConnectionTimeout "u" 20000 (initPeer "u") =
      { status := PeerStatus.error, timerActive := false, disconnected := false,
        peers := [("u", 0), ("u_20000", 20000)], joinVoiceScheduled := false } ∧
    (20000 : Nat) ≠ 20000 + 10000 := by
  exact ⟨rfl, by decide⟩

/-- C4 (amended): if identity confirmation does not arrive within the
20-second timeout, the layer transitions to `error` and immediately — at
the moment the timer fires, with no 10-second wait — re-attempts `open`
with a new identity formed by suffixing the original id with a uniqueness
token (the 10-second wait belongs to the network-error path instead); and
once the `open` confirmation arrives, the pending 20-second timer is
cancelled, so it never fires afterwards. -/
theorem C4_timeout_retry_and_cancel_on_open (baseId : String) (now : Nat) :
    ((fireConnectionTimeout baseId now (initPeer baseId)).status =
        PeerStatus.error ∧
     (fireConnectionTimeout baseId now (initPeer baseId)).peers =
        [(baseId, 0), (baseId ++ "_" ++ toString now, now)]) ∧
    (∀ s : PeerConnState,
      (handleOpen s).timerActive = false ∧
      (∀ bid t, fireConnectionTimeout bid t (handleOpen s) = handleOpen s)) := by
  constructor
  · exact ⟨rfl, rfl⟩
  · intro s
    refine ⟨rfl, ?_⟩
    intro bid t
    rfl

/-! ## Teardown (unmount cleanup Videocall.tsx:595-610 and main effect
cleanup Videocall.tsx:389-396) -/

/-- One tracked peer call: its handle identity and whether `close()` has
been invoked on it. -/
structure CallRec where
  cid : Nat
  closed : Bool
deriving DecidableEq, Repr

/-- Everything the session owns at the moment of teardown. -/
structure SessionResources where
  streamTracks : List Track
  streamRefSet : Bool
  chatConnected : Bool
  voiceConnected : Bool
  peerDestroyed : Bool
  timerActive : Bool
  callMap : List CallRec
deriving DecidableEq, Repr

/-- `s.getTracks().forEach(t => t.stop()); mediaStreamRef.current = null`
(Videocall.tsx:601-603). -/
def stopTracksStep (s : SessionResources) : SessionResources :=
  { s with streamTracks := s.streamTracks.map (fun t => { t with stopped := true }),
           streamRefSet := false }

/-- `socket.disconnect(); voiceSocket.disconnect()`
(Videocall.tsx:604-605, and 393-394 for the effect-scoped instances). -/
def disconnectChannelsStep (s : SessionResources) : SessionResources :=
  { s with chatConnected := false, voiceConnected := false }

/-- `clearTimeout(connectionTimeout); peer.destroy()`
(Videocall.tsx:391,395 and 606). -/
def destroyPeerStep (s : SessionResources) : SessionResources :=
  { s with peerDestroyed := true, timerActive := false }

/-- `peerCallsRef.current.forEach(call => call.close());
peerCallsRef.current.clear()` (Videocall.tsx:607-608).  Returns the new
state and, as the second component, the call records on which `close()`
was invoked. -/
def closeCallsStep (s : SessionResources) : SessionResources × List CallRec :=
  ({ s with callMap := [] }, s.callMap.map (fun c => { c with closed := true }))

/-- Full teardown: the union of the unmount cleanup and the main effect's
cleanup, in source order. -/
def teardown (s : SessionResources) : SessionResources × List CallRec :=
  closeCallsStep (destroyPeerStep (disconnectChannelsStep (stopTracksStep s)))

/-! ## Claim C8: teardown exhaustiveness -/

/-- C8: from every session state, after teardown every track of the local
media stream is stopped and the reference is cleared, both signaling
channels are disconnected, the negotiation layer is destroyed (and its
pending timer cleared), the call map is empty, and every previously
tracked call has had `close()` invoked on it — nothing stays live. -/
theorem C8_teardown_exhaustive (s : SessionResources) :
    (∀ t ∈ (teardown s).1.streamTracks, t.stopped = true) ∧
    (teardown s).1.streamRefSet = false ∧
    (teardown s).1.chatConnected = false ∧
    (teardown s).1.voiceConnected = false ∧
    (teardown s).1.peerDestroyed = true ∧
    (teardown s).1.timerActive = false ∧
    (teardown s).1.callMap = [] ∧
    (teardown s).2 = s.callMap.map (fun c => { c with closed := true }) := by
  refine ⟨?_, rfl, rfl, rfl, rfl, rfl, rfl, rfl⟩
  intro t ht
  simp only [teardown, closeCallsStep, destroyPeerStep, disconnectChannelsStep,
    stopTracksStep, List.mem_map] at ht
  obtain ⟨t', _, rfl⟩ := ht
  rfl

/-- Witness for C8 on a concrete live session state: its single track is
stopped by teardown. -/
theorem C8_teardown_exhaustive_witness :
    (⟨TrackKind.audio, true, true⟩ : Track) ∈
      (teardown ⟨[⟨TrackKind.audio, true, false⟩], true, true, true, false, true,
        [⟨0, false⟩]⟩).1.streamTracks ∧
    (⟨TrackKind.audio, true, true⟩ : Track).stopped = true :=
  ⟨by decide,
   (C8_teardown_exhaustive ⟨[⟨TrackKind.audio, true, false⟩], true, true, true,
      false, true, [⟨0, false⟩]⟩).1 ⟨TrackKind.audio, true, true⟩ (by decide)⟩

/-! ## Call map (`initiateCall` Videocall.tsx:400-436 and
`newPeer.on('call')` Videocall.tsx:351-387) -/

/-- State of the peer negotiation layer's call bookkeeping: a counter for
fresh call handles, the log of every call handle ever created (with its
closed flag), and `peerCallsRef.current` as an association list from peer
id to the tracked call handle. -/
structure PeerLayerState where
  nextId : Nat
  callsLog : List CallRec
  callMap : List (String × Nat)
deriving DecidableEq, Repr

/-- `Map.set`: replace the entry with the given key or append a new one. -/
def mapSet : List (String × Nat) → String → Nat → List (String × Nat)
  | [], k, v => [(k, v)]
  | e :: rest, k, v =>
      if e.1 = k then (k, v) :: rest else e :: mapSet rest k v

/-- `Map.get`: the value at the first entry with the given key. -/
def mapLookup : List (String × Nat) → String → Option Nat
  | [], _ => none
  | e :: rest, k => if e.1 = k then some e.2 else mapLookup rest k

/-- `initiateCall` (Videocall.tsx:400-436): no-op when there is no local
stream or the target is the local identity; otherwise creates a fresh call
handle via `peerInstance.call` and stores it with
`peerCallsRef.current.set(peerId, call)` — the previous entry for that
peer id, if any, is merely dropped from the map, never closed. -/
def initiateCall (localId : String) (hasStream : Bool) (peerId : String)
    (st : PeerLayerState) : PeerLayerState :=
  if hasStream = false ∨ peerId = localId then st
  else
    { nextId := st.nextId + 1,
      callsLog := st.callsLog ++ [⟨st.nextId, false⟩],
      callMap := mapSet st.callMap peerId st.nextId }

/-- The `newPeer.on('call')` handler (Videocall.tsx:351-387): an incoming
call without a peer id is ignored (left open, untracked); with mic on and
a stream present it is answered and stored with
`peerCallsRef.current.set(call.peer, call)`; otherwise it is closed and
never tracked. -/
def handleIncomingCall (callPeer : Option String) (micOn hasStream : Bool)
    (st : PeerLayerState) : PeerLayerState :=
  match callPeer with
  | none =>
      { st with nextId := st.nextId + 1,
                callsLog := st.callsLog ++ [⟨st.nextId, false⟩] }
  | some pid =>
      if micOn = true ∧ hasStream = true then
        { nextId := st.nextId + 1,
          callsLog := st.callsLog ++ [⟨st.nextId, false⟩],
          callMap := mapSet st.callMap pid st.nextId }
      else
        { st with nextId := st.nextId + 1,
                  callsLog := st.callsLog ++ [⟨st.nextId, true⟩] }

theorem mapSet_keys_mem (m : List (String × Nat)) (k : String) (v : Nat)
    (x : String) (hx : x ∈ (mapSet m k v).map Prod.fst) :
    x ∈ m.map Prod.fst ∨ x = k := by
  induction m with
  | nil =>
      simp only [mapSet, List.map_cons, List.map_nil, List.mem_singleton] at hx
      exact Or.inr hx
  | cons e rest ih =>
      by_cases hk : e.1 = k
      · simp only [mapSet, if_pos hk, List.map_cons, List.mem_cons] at hx
        rcases hx with h | h
        · exact Or.inr h
        · exact Or.inl (by simp only [List.map_cons, List.mem_cons]; exact Or.inr h)
      · simp only [mapSet, if_neg hk, List.map_cons, List.mem_cons] at hx
        rcases hx with h | h
        · exact Or.inl (by simp only [List.map_cons, List.mem_cons]; exact Or.inl h)
        · rcases ih h with h' | h'
          · exact Or.inl (by simp only [List.map_cons, List.mem_cons]; exact Or.inr h')
          · exact Or.inr h'

theorem mapSet_keys_nodup (m : List (String × Nat)) (k : String) (v : Nat)
    (h : (m.map Prod.fst).Nodup) : ((mapSet m k v).map Prod.fst).Nodup := by
  induction m with
  | nil => simp [mapSet]
  | cons e rest ih =>
      simp only [List.map_cons, List.nodup_cons] at h
      by_cases hk : e.1 = k
      · simp only [mapSet, if_pos hk, List.map_cons, List.nodup_cons]
        exact ⟨hk ▸ h.1, h.2⟩
      · simp only [mapSet, if_neg hk, List.map_cons, List.nodup_cons]
        refine ⟨?_, ih h.2⟩
        intro hmem
        rcases mapSet_keys_mem rest k v e.1 hmem with h' | h'
        · exact h.1 h'
        · exact hk h'

theorem mapLookup_mapSet_self (m : List (String × Nat)) (k : String) (v : Nat) :
    mapLookup (mapSet m k v) k = some v := by
  induction m with
  | nil => simp [mapSet, mapLookup]
  | cons e rest ih =>
      by_cases hk : e.1 = k
      · simp [mapSet, if_pos hk, mapLookup]
      · simp [mapSet, if_neg hk, mapLookup, hk, ih]

/-! ## Claim C9: at most one tracked call per peer, replacement never
closes the old handle -/

/-- C9: the tracked-call map keeps at most one entry per remote peer id
(distinctness of keys is preserved by both the outbound and the incoming
paths); and when a call is placed — or an incoming call answered — for a
peer id already tracked, the map afterwards holds the new handle for that
id while the call log is only extended with the new (open) handle: every
previously tracked handle's record, in particular its closed flag, is
untouched, so the replaced call is dropped from tracking but not closed. -/
theorem C9_call_map_replacement (st : PeerLayerState)
    (localId peerId : String) (oldCid : Nat)
    (hnodup : (st.callMap.map Prod.fst).Nodup)
    (htracked : mapLookup st.callMap peerId = some oldCid)
    (hself : peerId ≠ localId) :
    (((initiateCall localId true peerId st).callMap.map Prod.fst).Nodup ∧
     mapLookup (initiateCall localId true peerId st).callMap peerId =
       some st.nextId ∧
     (initiateCall localId true peerId st).callsLog =
       st.callsLog ++ [⟨st.nextId, false⟩]) ∧
    (((handleIncomingCall (some peerId) true true st).callMap.map Prod.fst).Nodup ∧
     mapLookup (handleIncomingCall (some peerId) true true st).callMap peerId =
       some st.nextId ∧
     (handleIncomingCall (some peerId) true true st).callsLog =
       st.callsLog ++ [⟨st.nextId, false⟩]) := by
  have hstep : initiateCall localId true peerId st =
      { nextId := st.nextId + 1,
        callsLog := st.callsLog ++ [⟨st.nextId, false⟩],
        callMap := mapSet st.callMap peerId st.nextId } := by
    unfold initiateCall
    rw [if_neg]
    rintro (h | h)
    · exact Bool.noConfusion h
    · exact hself h
  have hstep' : handleIncomingCall (some peerId) true true st =
      { nextId := st.nextId + 1,
        callsLog := st.callsLog ++ [⟨st.nextId, false⟩],
        callMap := mapSet st.callMap peerId st.nextId } := by
    simp [handleIncomingCall]
  rw [hstep, hstep']
  exact ⟨⟨mapSet_keys_nodup _ _ _ hnodup, mapLookup_mapSet_self _ _ _, rfl⟩,
         ⟨mapSet_keys_nodup _ _ _ hnodup, mapLookup_mapSet_self _ _ _, rfl⟩⟩

/-- Witness for C9: peer "p" is already tracked with handle 0; placing and
answering a call for "p" replaces the mapping with handle 5 while handle
0's record stays open in the log. -/
theorem C9_call_map_replacement_witness :
    ((((initiateCall "me" true "p" ⟨5, [⟨0, false⟩], [("p", 0)]⟩).callMap.map
        Prod.fst).Nodup ∧
      mapLookup (initiateCall "me" true "p"
        ⟨5, [⟨0, false⟩], [("p", 0)]⟩).callMap "p" = some 5 ∧
      (initiateCall "me" true "p" ⟨5, [⟨0, false⟩], [("p", 0)]⟩).callsLog =
        [⟨0, false⟩] ++ [⟨5, false⟩]) ∧
     (((handleIncomingCall (some "p") true true
        ⟨5, [⟨0, false⟩], [("p", 0)]⟩).callMap.map Prod.fst).Nodup ∧
      mapLookup (handleIncomingCall (some "p") true true
        ⟨5, [⟨0, false⟩], [("p", 0)]⟩).callMap "p" = some 5 ∧
      (handleIncomingCall (some "p") true true
        ⟨5, [⟨0, false⟩], [("p", 0)]⟩).callsLog =
        [⟨0, false⟩] ++ [⟨5, false⟩])) :=
  C9_call_map_replacement ⟨5, [⟨0, false⟩], [("p", 0)]⟩ "me" "p" 0
    (by decide) (by decide) (by decide)

end MedConnect
